import Mathlib

/-!
# Verification of the expiring web-storage service

Shallow embedding of `src/.tmp/lib/storage.service.ts` (the `StorageService`
class of mizne/web-storage) and proofs about it.

Modelling conventions:

* The backend medium (browser `Storage`) is modelled as a partial map from
  internal keys to cells, threaded explicitly through every operation so that
  several store instances can alias one medium.  A cell is either a
  well-shaped serialized envelope (`Cell.env`) — a JSON object with a numeric
  `@@EXPIRED_AT` field, i.e. one passing `isValidValue` — or `Cell.malformed`,
  covering any stored text whose `JSON.parse` fails or whose shape check
  fails (this also covers the raw `''` sentinel written by `checkSupport`).
* JavaScript exceptions are modelled by an explicit `thrown : Option String`
  component in each operation's result; the state components of the result
  are the effects performed up to the throw point, matching JS semantics.
  `get` wraps its whole body in `try { ... } catch { return null }`, so it
  never throws.
* An unset backend handle (`this.storage` left `undefined` by `initStorage`)
  is the `hasStorage := false` flag; a member access on the undefined handle
  throws a `TypeError`.
* The duration parser `ms` is an external collaborator (its module is not
  part of the service source); operations take it as a parameter
  `msFn : String → Except String Int` (`Except.error` = the parser threw).
  A concrete executable instance `msImpl` is modelled from the spec.
* `Subject.next` on the two broadcast streams is modelled as prepending to a
  log (`errors`, `actions`), newest first.  Subscribers are total, so the
  subscriber-exception catch inside `notifyAction` is never triggered in the
  model.
* The clock `+new Date()` is an explicit parameter `now : Int`.
-/

namespace WebStorage

/-- `StorageType` enum of the source, plus the value falling into the
`default` branch of the `switch` in `initStorage` (in TS the enum is a plain
string at runtime, so an unrecognized tag is representable). -/
inductive StorageType where
  | local
  | session
  | unknown
deriving DecidableEq

/-- `AngularWebStoreError`: the structured error records sent on the
`errors` stream (`code`, `message`). -/
structure Err where
  code : Int
  message : String
deriving DecidableEq

/-- Modelled from the spec: the error constants live in `storage.errors.ts`,
which is not under `src/`; the spec fixes only that errors carry a code and a
message.  The exact payloads are irrelevant to the claims (only identity and
count matter). -/
def LOCAL_STORAGE_NOT_SUPPORTED : Err := ⟨400, "localStorage is not supported"⟩

/-- Modelled from the spec: see `LOCAL_STORAGE_NOT_SUPPORTED`. -/
def SESSION_STORAGE_NOT_SUPPORTED : Err := ⟨400, "sessionStorage is not supported"⟩

/-- Modelled from the spec: see `LOCAL_STORAGE_NOT_SUPPORTED`. -/
def UNKNOWN_STORAGE_TYPE : Err := ⟨400, "unknown storage type"⟩

/-- The four action kinds (`SetAction.TYPE`, ...). -/
inductive ActionType where
  | set
  | get
  | remove
  | clear
deriving DecidableEq

/-- The action records sent on the `actions` stream: `SetAction(key, value,
expiredIn)`, `GetAction(key)`, `RemoveAction(key)`, `ClearAction()`. -/
inductive Action (α : Type) where
  | set (key : String) (value : α) (expiredIn : Option String)
  | get (key : String)
  | remove (key : String)
  | clear
deriving DecidableEq

/-- The `TYPE` tag of an action record. -/
def Action.type {α : Type} : Action α → ActionType
  | .set _ _ _ => .set
  | .get _ => .get
  | .remove _ => .remove
  | .clear => .clear

/-- `ActionNotifyOptions`: the per-action-kind notification mask
(`config.actionNotify`); a missing field is `undefined`, hence falsy, hence
`false` here. -/
structure ActionNotifyOptions where
  onSet : Bool
  onGet : Bool
  onRemove : Bool
  onClear : Bool
deriving DecidableEq

/-- `this.actionNotify[action]` — mask lookup by action type tag. -/
def ActionNotifyOptions.lookup (o : ActionNotifyOptions) : ActionType → Bool
  | .set => o.onSet
  | .get => o.onGet
  | .remove => o.onRemove
  | .clear => o.onClear

/-- One stored cell of the backend medium: either a well-shaped envelope
`{"@@EXPIRED_MS": expiredMs, "@@EXPIRED_AT": expiredAt, "@@STORAGE_VALUE":
value}` (non-null object with numeric `@@EXPIRED_AT`, i.e. passing
`isValidValue` after `JSON.parse`), or text that fails `JSON.parse` or the
shape check. -/
inductive Cell (α : Type) where
  | env (expiredMs : Int) (expiredAt : Int) (value : α)
  | malformed
deriving DecidableEq

/-- The backend medium: internal key → stored cell. -/
def Mem (α : Type) : Type := String → Option (Cell α)

/-- `storage.setItem`. -/
def memInsert {α : Type} (mem : Mem α) (k : String) (c : Cell α) : Mem α :=
  fun k' => if k' = k then some c else mem k'

/-- `storage.removeItem`. -/
def memRemove {α : Type} (mem : Mem α) (k : String) : Mem α :=
  fun k' => if k' = k then none else mem k'

/-- `storage.clear` / the empty medium. -/
def memClear {α : Type} : Mem α :=
  fun _ => none

/-- The mutable fields of a `StorageService` instance together with the two
broadcast streams, logged newest-first.  `keyPrefix` is the `prefix` field of
the source (renamed: `prefix` is a Lean keyword); `hasStorage = false` means
the `storage` handle was left `undefined` by `initStorage`. -/
structure SvcState (α : Type) where
  hasStorage : Bool
  keyPrefix : String
  expiredMs : Int
  keepAlive : Bool
  actionNotify : ActionNotifyOptions
  errors : List Err
  actions : List (Action α)
deriving DecidableEq

/-- `computeKey`: external key → internal storage key. -/
def computeKey (keyPrefix originalKey : String) : String :=
  keyPrefix ++ "__" ++ originalKey

/-- `unExpired`: `mills === -1 || mills >= +new Date()`. -/
def unExpired (mills now : Int) : Bool :=
  mills == -1 || now ≤ mills

/-- `notifyAction`: emit the action record iff the mask enables its kind.
Subscribers are total in the model, so the catch is never taken. -/
def notifyAction {α : Type} (st : SvcState α) (a : Action α) : SvcState α :=
  if st.actionNotify.lookup a.type then { st with actions := a :: st.actions }
  else st

/-- `computeExpiredMs`: `expiredIn ? ms(expiredIn) : this.expiredMs`.
The empty string is falsy in JS, hence also falls back to the default. -/
def computeExpiredMs {α : Type} (msFn : String → Except String Int)
    (st : SvcState α) (expiredIn : Option String) : Except String Int :=
  match expiredIn with
  | some s => if s = "" then Except.ok st.expiredMs else msFn s
  | none => Except.ok st.expiredMs

/-- Result of an operation that may throw (`set`, `remove`, `clear`,
construction): the service state and medium at return or throw point, and
the thrown message if any. -/
structure WriteRes (α : Type) where
  st : SvcState α
  mem : Mem α
  thrown : Option String

/-- Result of `get`: never throws, yields the value or `null` (`none`). -/
structure ReadRes (α : Type) where
  st : SvcState α
  mem : Mem α
  value : Option α

/-- The message of the `TypeError` raised by a member access on the
undefined `storage` handle. -/
def undefinedStorageMsg : String :=
  "TypeError: Cannot read properties of undefined"

namespace StorageService

/-- `StorageService.set key value expiredIn?`:
1. notify the `Set` action (before anything else, unconditionally of
   success);
2. resolve the effective duration (a parser failure here throws out of
   `set`);
3. write the serialized envelope under the prefixed key; if the handle is
   unset the member access throws a `TypeError`. -/
def set {α : Type} (msFn : String → Except String Int) (now : Int)
    (st : SvcState α) (mem : Mem α) (key : String) (value : α)
    (expiredIn : Option String) : WriteRes α :=
  let st1 := notifyAction st (Action.set key value expiredIn)
  match computeExpiredMs msFn st1 expiredIn with
  | Except.error e => ⟨st1, mem, some e⟩
  | Except.ok ems =>
    if st1.hasStorage then
      ⟨st1,
        memInsert mem (computeKey st1.keyPrefix key)
          (Cell.env ems (if ems = -1 then -1 else now + ems) value),
        none⟩
    else ⟨st1, mem, some undefinedStorageMsg⟩

/-- `StorageService.get key`: notify the `Get` action, then inside
`try { ... } catch { return null }`:
read and parse the cell at the prefixed key (absent, unparseable or
ill-shaped → `null`); if the envelope is unexpired return its value, first
re-writing it through `set` with its original duration rendered as
`String(ms) + 'ms'` when it is finite and `keepAlive` is on (a throw from
that `set` is caught, yielding `null`, with the effects made before the
throw kept); if expired, remove the cell and return `null`.  An unset
handle makes `getItem` throw, which the catch turns into `null`. -/
def get {α : Type} (msFn : String → Except String Int) (now : Int)
    (st : SvcState α) (mem : Mem α) (key : String) : ReadRes α :=
  let st1 := notifyAction st (Action.get key)
  if st1.hasStorage then
    match mem (computeKey st1.keyPrefix key) with
    | none => ⟨st1, mem, none⟩
    | some Cell.malformed => ⟨st1, mem, none⟩
    | some (Cell.env ems eat v) =>
      if unExpired eat now then
        if eat != -1 && st1.keepAlive then
          let r := set msFn now st1 mem key v (some (toString ems ++ "ms"))
          match r.thrown with
          | none => ⟨r.st, r.mem, some v⟩
          | some _ => ⟨r.st, r.mem, none⟩
        else ⟨st1, mem, some v⟩
      else ⟨st1, memRemove mem (computeKey st1.keyPrefix key), none⟩
  else ⟨st1, mem, none⟩

/-- `StorageService.remove key`: notify, then `removeItem` on the prefixed
key (a `TypeError` if the handle is unset). -/
def remove {α : Type} (st : SvcState α) (mem : Mem α) (key : String) :
    WriteRes α :=
  let st1 := notifyAction st (Action.remove key)
  if st1.hasStorage then
    ⟨st1, memRemove mem (computeKey st1.keyPrefix key), none⟩
  else ⟨st1, mem, some undefinedStorageMsg⟩

/-- `StorageService.clear`: notify, then `storage.clear()` — the whole
medium, not only this store's prefix (a `TypeError` if the handle is
unset). -/
def clear {α : Type} (st : SvcState α) (mem : Mem α) : WriteRes α :=
  let st1 := notifyAction st Action.clear
  if st1.hasStorage then ⟨st1, memClear, none⟩
  else ⟨st1, mem, some undefinedStorageMsg⟩

end StorageService

/-- `window[storageType]` as seen by `checkSupport` / `initStorage`:
whether the property exists (`storageType in window`), whether it is
`null`, whether every access to the medium object raises (and with which
message), and the medium's contents when it works. -/
structure Slot (α : Type) where
  present : Bool
  isNull : Bool
  throwing : Option String
  mem : Mem α

/-- `checkSupport`: inside a `try`, if the property exists and is non-null,
write the sentinel key `` `${prefix}_CHECK_SUPPORT` `` with the raw string
`''` and remove it again, reporting `true`; a raise from the medium is
caught and reported on the error stream as code 500 with the underlying
message, yielding `false`.  Returns the updated state, the medium contents
after the probe, and the support verdict. -/
def checkSupport {α : Type} (st : SvcState α) (slot : Slot α) :
    SvcState α × Mem α × Bool :=
  if slot.present && !slot.isNull then
    match slot.throwing with
    | some msg => ({ st with errors := ⟨500, msg⟩ :: st.errors }, slot.mem, false)
    | none =>
      let k := st.keyPrefix ++ "_CHECK_SUPPORT"
      (st, memRemove (memInsert slot.mem k Cell.malformed) k, true)
  else (st, slot.mem, false)

/-- `initStorage`: on a recognized storage type, bind the handle iff
`checkSupport` succeeds, else emit the matching not-supported error; on an
unrecognized type emit `UNKNOWN_STORAGE_TYPE`. -/
def initStorage {α : Type} (st : SvcState α) (storageType : StorageType)
    (slot : Slot α) : SvcState α × Mem α :=
  match storageType with
  | StorageType.local =>
    let r := checkSupport st slot
    if r.2.2 then ({ r.1 with hasStorage := true }, r.2.1)
    else ({ r.1 with errors := LOCAL_STORAGE_NOT_SUPPORTED :: r.1.errors }, r.2.1)
  | StorageType.session =>
    let r := checkSupport st slot
    if r.2.2 then ({ r.1 with hasStorage := true }, r.2.1)
    else ({ r.1 with errors := SESSION_STORAGE_NOT_SUPPORTED :: r.1.errors }, r.2.1)
  | StorageType.unknown =>
    ({ st with errors := UNKNOWN_STORAGE_TYPE :: st.errors }, slot.mem)

/-- `AngularWebStoreConfig`: `{ prefix?, expiredIn?, keepAlive?,
actionNotify? }` (field `prefix` renamed, see `SvcState.keyPrefix`). -/
structure AngularWebStoreConfig where
  keyPrefix : Option String
  expiredIn : Option String
  keepAlive : Option Bool
  actionNotify : Option ActionNotifyOptions
deriving DecidableEq

/-- The constructor: `initConfig` (`prefix || 'MIZNE'`,
`expiredIn ? ms(expiredIn) : -1` — a parse failure here throws out of the
constructor —, `actionNotify || {}`, `keepAlive || false`) followed by
`initStorage`. -/
def constructStore {α : Type} (msFn : String → Except String Int)
    (storageType : StorageType) (slot : Slot α)
    (config : AngularWebStoreConfig) : Except String (SvcState α × Mem α) :=
  let p :=
    match config.keyPrefix with
    | some s => if s = "" then "MIZNE" else s
    | none => "MIZNE"
  let emsE : Except String Int :=
    match config.expiredIn with
    | some s => if s = "" then Except.ok (-1) else msFn s
    | none => Except.ok (-1)
  match emsE with
  | Except.error e => Except.error e
  | Except.ok ems =>
    let st0 : SvcState α :=
      { hasStorage := false
        keyPrefix := p
        expiredMs := ems
        keepAlive := (config.keepAlive).getD false
        actionNotify := (config.actionNotify).getD ⟨false, false, false, false⟩
        errors := []
        actions := [] }
    Except.ok (initStorage st0 storageType slot)

/-- Decimal digit run → magnitude (helper of `msImpl`). -/
def parseDigitsAux : List Char → Nat → Option Nat
  | [], acc => some acc
  | c :: cs, acc =>
    if c.isDigit then parseDigitsAux cs (acc * 10 + (c.toNat - 48)) else none

/-- Optionally signed decimal numeral → integer (helper of `msImpl`). -/
def parseIntChars : List Char → Option Int
  | [] => none
  | '-' :: rest =>
    match rest with
    | [] => none
    | _ => (parseDigitsAux rest 0).map (fun n => -(n : Int))
  | l => (parseDigitsAux l 0).map (fun n => (n : Int))

/-- Modelled from the spec: the duration-string parser (the `ms` module), an
external collaborator whose source is not under `src/`.  It converts
suffix-annotated magnitudes (`"3ms"`, `"4s"`, `"5m"`, `"6h"`, `"7d"`,
`"8y"`) into millisecond counts and fails on unrecognized format.  The
suffix is matched on the reversed character list so that `"ms"` takes
precedence over the bare `"s"` suffix. -/
def msImpl (s : String) : Except String Int :=
  let fail : Except String Int := Except.error ("invalid duration format: " ++ s)
  let num (l : List Char) (mult : Int) : Except String Int :=
    match parseIntChars l.reverse with
    | some k => Except.ok (k * mult)
    | none => fail
  match s.data.reverse with
  | 's' :: 'm' :: rest => num rest 1
  | 's' :: rest => num rest 1000
  | 'm' :: rest => num rest 60000
  | 'h' :: rest => num rest 3600000
  | 'd' :: rest => num rest 86400000
  | 'y' :: rest => num rest 31557600000
  | _ => fail

/-- Read times chained to the previous write or read: each read happens at
or after the previous event and within `d` milliseconds of it. -/
def spaced (d : Int) : Int → List Int → Bool
  | _, [] => true
  | t0, t :: ts => (decide (t0 ≤ t) && decide (t ≤ t0 + d)) && spaced d t ts

/-- Run a sequence of `get`s of one key at the given clock values,
threading service state and medium; the third component lists the values
the reads returned, in order. -/
def runReads {α : Type} (msFn : String → Except String Int) (key : String) :
    SvcState α → Mem α → List Int → SvcState α × Mem α × List (Option α)
  | st, mem, [] => (st, mem, [])
  | st, mem, t :: ts =>
    let r := StorageService.get msFn t st mem key
    let rest := runReads msFn key r.st r.mem ts
    (rest.1, rest.2.1, r.value :: rest.2.2)

/-! ### Concrete instances used in closed statements -/

/-- The all-disabled notification mask (`actionNotify || {}` with `{}`). -/
def maskNone : ActionNotifyOptions := ⟨false, false, false, false⟩

/-- A store whose backend handle was left unset. -/
def c1St : SvcState Nat := ⟨false, "MIZNE", -1, false, maskNone, [], []⟩

/-- A successfully constructed store (available backend, all defaults). -/
def c2St : SvcState Nat := ⟨true, "MIZNE", -1, false, maskNone, [], []⟩

/-- The state produced by constructing against a throwing medium with
message `"boom"`. -/
def c3St : SvcState Nat :=
  ⟨false, "MIZNE", -1, false, maskNone,
    [LOCAL_STORAGE_NOT_SUPPORTED, ⟨500, "boom"⟩], []⟩

/-- An available-backend store with prefix `"A"`. -/
def c4St1 : SvcState Nat := ⟨true, "A", -1, false, maskNone, [], []⟩

/-- An available-backend store with prefix `"B"`. -/
def c4St2 : SvcState Nat := ⟨true, "B", -1, false, maskNone, [], []⟩

/-- An available-backend store with keep-alive enabled. -/
def c7St : SvcState Nat := ⟨true, "MIZNE", -1, true, maskNone, [], []⟩

/-- A medium holding one live envelope (ttl 5, expiry 15) under the
prefixed key `"MIZNE__k"`. -/
def c7Mem : Mem Nat := memInsert memClear (computeKey "MIZNE" "k") (Cell.env 5 15 42)

/-- An available-backend store with keep-alive enabled and `Set`/`Get`
notifications enabled. -/
def c10St : SvcState Nat := ⟨true, "MIZNE", -1, true, ⟨true, true, false, false⟩, [], []⟩

/-! ## Basic lemmas about the model -/

@[simp]
theorem notifyAction_hasStorage {α : Type} (st : SvcState α) (a : Action α) :
    (notifyAction st a).hasStorage = st.hasStorage := by
  unfold notifyAction; split <;> rfl

@[simp]
theorem notifyAction_keyPrefix {α : Type} (st : SvcState α) (a : Action α) :
    (notifyAction st a).keyPrefix = st.keyPrefix := by
  unfold notifyAction; split <;> rfl

@[simp]
theorem notifyAction_expiredMs {α : Type} (st : SvcState α) (a : Action α) :
    (notifyAction st a).expiredMs = st.expiredMs := by
  unfold notifyAction; split <;> rfl

@[simp]
theorem notifyAction_keepAlive {α : Type} (st : SvcState α) (a : Action α) :
    (notifyAction st a).keepAlive = st.keepAlive := by
  unfold notifyAction; split <;> rfl

@[simp]
theorem notifyAction_actionNotify {α : Type} (st : SvcState α) (a : Action α) :
    (notifyAction st a).actionNotify = st.actionNotify := by
  unfold notifyAction; split <;> rfl

@[simp]
theorem notifyAction_errors {α : Type} (st : SvcState α) (a : Action α) :
    (notifyAction st a).errors = st.errors := by
  unfold notifyAction; split <;> rfl

@[simp]
theorem memInsert_self {α : Type} (mem : Mem α) (k : String) (c : Cell α) :
    memInsert mem k c k = some c := by
  simp [memInsert]

@[simp]
theorem memInsert_other {α : Type} (mem : Mem α) (k k' : String) (c : Cell α)
    (h : k' ≠ k) : memInsert mem k c k' = mem k' := by
  simp [memInsert, h]

@[simp]
theorem memRemove_self {α : Type} (mem : Mem α) (k : String) :
    memRemove mem k k = none := by
  simp [memRemove]

@[simp]
theorem memRemove_other {α : Type} (mem : Mem α) (k k' : String)
    (h : k' ≠ k) : memRemove mem k k' = mem k' := by
  simp [memRemove, h]

/-! ## Claims -/

/-- **C1**, counterexample.  A store constructed against a medium that
throws on every access (so the handle stays unset): contrary to the claim,
`set`, `remove` and `clear` are not guarded by presence of the handle —
each of them raises. -/
theorem c1_counterexample :
    (constructStore (α := Nat) msImpl StorageType.local
        ⟨true, false, some "SecurityError: access denied", memClear⟩
        ⟨none, none, none, none⟩).map
      (fun r =>
        ((StorageService.set msImpl 0 r.1 r.2 "k" 0 none).thrown.isSome,
         (StorageService.remove r.1 r.2 "k").thrown.isSome,
         (StorageService.clear r.1 r.2).thrown.isSome)) =
    Except.ok (true, true, true) := rfl

/-- **C1** (amended).  With the backend handle unset, `get` returns nothing
found, does not raise, and performs no backend I/O; but `set`, `remove` and
`clear` are not guarded by presence of the handle: each raises (a duration
parse failure or the `TypeError` from the undefined handle) while still
performing no backend I/O. -/
theorem c1_unavailable_backend_ops {α : Type}
    (msFn : String → Except String Int) (now : Int) (st : SvcState α)
    (mem : Mem α) (key : String) (value : α) (expiredIn : Option String)
    (h : st.hasStorage = false) :
    (StorageService.get msFn now st mem key).value = none ∧
    (StorageService.get msFn now st mem key).mem = mem ∧
    (StorageService.set msFn now st mem key value expiredIn).thrown.isSome = true ∧
    (StorageService.set msFn now st mem key value expiredIn).mem = mem ∧
    (StorageService.remove st mem key).thrown.isSome = true ∧
    (StorageService.remove st mem key).mem = mem ∧
    (StorageService.clear st mem).thrown.isSome = true ∧
    (StorageService.clear st mem).mem = mem := by
  refine ⟨?_, ?_, ?_, ?_, ?_, ?_, ?_, ?_⟩
  · simp [StorageService.get, h]
  · simp [StorageService.get, h]
  · cases hc : computeExpiredMs msFn
        (notifyAction st (Action.set key value expiredIn)) expiredIn <;>
      simp [StorageService.set, hc, h]
  · cases hc : computeExpiredMs msFn
        (notifyAction st (Action.set key value expiredIn)) expiredIn <;>
      simp [StorageService.set, hc, h]
  · simp [StorageService.remove, h]
  · simp [StorageService.remove, h]
  · simp [StorageService.clear, h]
  · simp [StorageService.clear, h]

/-- Witness for `c1_unavailable_backend_ops` at a concrete store. -/
theorem c1_witness :
    (StorageService.get msImpl 7 c1St memClear "k").value = none ∧
    (StorageService.get msImpl 7 c1St memClear "k").mem = memClear ∧
    (StorageService.set msImpl 7 c1St memClear "k" 3 none).thrown.isSome = true ∧
    (StorageService.set msImpl 7 c1St memClear "k" 3 none).mem = memClear ∧
    (StorageService.remove c1St memClear "k").thrown.isSome = true ∧
    (StorageService.remove c1St memClear "k").mem = memClear ∧
    (StorageService.clear c1St memClear).thrown.isSome = true ∧
    (StorageService.clear c1St memClear).mem = memClear :=
  c1_unavailable_backend_ops msImpl 7 c1St memClear "k" 3 none rfl

/-- **C2**, counterexample.  On a successfully constructed store with an
available backend, `set` with an unparseable duration string throws the
parser's failure to the caller (interrupting caller control flow) and
nothing is emitted on the error broadcast stream. -/
theorem c2_counterexample :
    (constructStore (α := Nat) msImpl StorageType.local
        ⟨true, false, none, memClear⟩ ⟨none, none, none, none⟩).map
      (fun r =>
        ((StorageService.set msImpl 0 r.1 r.2 "k" 0 (some "bogus")).thrown,
         (StorageService.set msImpl 0 r.1 r.2 "k" 0 (some "bogus")).st.errors)) =
    Except.ok (some "invalid duration format: bogus", []) := rfl

/-- **C2** (amended).  A `set` whose non-empty duration string fails to
parse throws the parse failure to the caller rather than funneling it into
the error broadcast stream: the call is interrupted with exactly the
parser's error, the error stream is untouched, and no write is performed.
(`get` still never throws: every fault on its read path is swallowed into a
"not found" result, see its `ReadRes` type, which has no throw channel.) -/
theorem c2_set_parse_failure_throws {α : Type}
    (msFn : String → Except String Int) (now : Int) (st : SvcState α)
    (mem : Mem α) (key : String) (value : α) (s e : String)
    (hs : s ≠ "") (hp : msFn s = Except.error e) :
    (StorageService.set msFn now st mem key value (some s)).thrown = some e ∧
    (StorageService.set msFn now st mem key value (some s)).st.errors = st.errors ∧
    (StorageService.set msFn now st mem key value (some s)).mem = mem := by
  have hc : computeExpiredMs msFn
      (notifyAction st (Action.set key value (some s))) (some s) =
      Except.error e := by
    simp [computeExpiredMs, hs, hp]
  refine ⟨?_, ?_, ?_⟩ <;> simp [StorageService.set, hc]

/-- Witness for `c2_set_parse_failure_throws` at a concrete store. -/
theorem c2_witness :
    (StorageService.set msImpl 0 c2St memClear "k" 5 (some "bogus")).thrown =
      some "invalid duration format: bogus" ∧
    (StorageService.set msImpl 0 c2St memClear "k" 5 (some "bogus")).st.errors =
      c2St.errors ∧
    (StorageService.set msImpl 0 c2St memClear "k" 5 (some "bogus")).mem = memClear :=
  c2_set_parse_failure_throws msImpl 0 c2St memClear "k" 5 "bogus"
    "invalid duration format: bogus" (by decide) rfl

/-- **C3**, counterexample.  Constructing against a medium that throws on
every access emits two error notifications, not exactly one. -/
theorem c3_counterexample :
    (constructStore (α := Nat) msImpl StorageType.local
        ⟨true, false, some "boom", memClear⟩ ⟨none, none, none, none⟩).map
      (fun r => r.1.errors.length) = Except.ok 2 := rfl

/-- **C3** (amended).  Constructing a store against a recognized backend
kind whose medium throws on every access emits exactly two error
notifications during construction: a code-500 error carrying the underlying
message (from the availability probe's catch), followed by the matching
medium-not-supported error; the handle is left unset. -/
theorem c3_throwing_medium_two_errors {α : Type}
    (msFn : String → Except String Int) (storageType : StorageType)
    (slot : Slot α) (config : AngularWebStoreConfig) (msg : String)
    (st : SvcState α) (mem : Mem α)
    (hp : slot.present = true) (hn : slot.isNull = false)
    (ht : slot.throwing = some msg) (hu : storageType ≠ StorageType.unknown)
    (hok : constructStore msFn storageType slot config = Except.ok (st, mem)) :
    st.errors =
      [(if storageType = StorageType.local then LOCAL_STORAGE_NOT_SUPPORTED
        else SESSION_STORAGE_NOT_SUPPORTED), ⟨500, msg⟩] ∧
    st.errors.length = 2 ∧ st.hasStorage = false := by
  have hcs : ∀ st0 : SvcState α, checkSupport st0 slot =
      ({ st0 with errors := ⟨500, msg⟩ :: st0.errors }, slot.mem, false) := by
    intro st0
    simp [checkSupport, hp, hn, ht]
  unfold constructStore at hok
  rcases hE : (match config.expiredIn with
    | some s => if s = "" then Except.ok (-1) else msFn s
    | none => Except.ok ((-1 : Int))) with e | ems
  · rw [hE] at hok; cases hok
  · rw [hE] at hok
    simp only [Except.ok.injEq] at hok
    cases storageType
    case unknown => exact absurd rfl hu
    all_goals
      simp only [initStorage, hcs] at hok
      injection hok with h1 h2
      rw [← h1]
      simp

/-- Witness for `c3_throwing_medium_two_errors` at a concrete construction. -/
theorem c3_witness :
    c3St.errors =
      [(if StorageType.local = StorageType.local then LOCAL_STORAGE_NOT_SUPPORTED
        else SESSION_STORAGE_NOT_SUPPORTED), ⟨500, "boom"⟩] ∧
    c3St.errors.length = 2 ∧ c3St.hasStorage = false :=
  c3_throwing_medium_two_errors msImpl StorageType.local
    ⟨true, false, some "boom", memClear⟩ ⟨none, none, none, none⟩ "boom"
    c3St memClear rfl rfl rfl (by decide) rfl

/-- Whether `set` throws does not depend on the medium contents (only on
the duration parse and on presence of the handle). -/
theorem set_thrown_indep_mem {α : Type} (msFn : String → Except String Int)
    (now : Int) (st : SvcState α) (mem1 mem2 : Mem α) (key : String)
    (value : α) (expiredIn : Option String) :
    (StorageService.set msFn now st mem1 key value expiredIn).thrown =
    (StorageService.set msFn now st mem2 key value expiredIn).thrown := by
  simp only [StorageService.set]
  split
  · rfl
  · split <;> rfl

/-- The value returned by `get` depends on the medium only through the cell
stored at the store's own prefixed key. -/
theorem get_value_congr {α : Type} (msFn : String → Except String Int)
    (now : Int) (st : SvcState α) (mem1 mem2 : Mem α) (key : String)
    (h : mem1 (computeKey st.keyPrefix key) = mem2 (computeKey st.keyPrefix key)) :
    (StorageService.get msFn now st mem1 key).value =
    (StorageService.get msFn now st mem2 key).value := by
  simp only [StorageService.get, notifyAction_keyPrefix]
  rw [h]
  split
  · split
    · rfl
    · rfl
    · split
      · split
        · rw [set_thrown_indep_mem msFn now (notifyAction st (Action.get key))
            mem1 mem2 key]
          split <;> rfl
        · rfl
      · rfl
  · rfl

/-- **C4**, counterexample.  Two stores with the distinct prefixes `"A"`
and `"A__B"` on the same medium map the distinct external keys `"B__C"`
and `"C"` to the same internal storage key. -/
theorem c4_counterexample :
    computeKey "A" "B__C" = computeKey "A__B" "C" ∧ "A" ≠ "A__B" :=
  ⟨rfl, by decide⟩

/-- **C4** (amended).  For stores with different prefixes on the same
medium, the internal storage keys for the *same* external key never
coincide, and a `set` of key `k` by one store is never observed by the
other store's `get` of `k`; for different external keys internal keys can
coincide (see the counterexample). -/
theorem c4_distinct_prefix_isolated (p1 p2 k : String) (h : p1 ≠ p2) :
    computeKey p1 k ≠ computeKey p2 k ∧
    ∀ {α : Type} (msFn : String → Except String Int) (now : Int)
      (st1 st2 : SvcState α) (mem : Mem α) (v : α),
      st1.keyPrefix = p1 → st2.keyPrefix = p2 →
      (StorageService.get msFn now st2
          (StorageService.set msFn now st1 mem k v none).mem k).value =
      (StorageService.get msFn now st2 mem k).value := by
  have hck : computeKey p1 k ≠ computeKey p2 k := by
    intro he
    apply h
    have hd : (p1.data ++ "__".data) ++ k.data = (p2.data ++ "__".data) ++ k.data := by
      have hq := congrArg String.data he
      simpa only [computeKey, String.data_append] using hq
    exact String.ext (List.append_cancel_right (List.append_cancel_right hd))
  refine ⟨hck, ?_⟩
  intro α msFn now st1 st2 mem v h1 h2
  apply get_value_congr
  simp only [StorageService.set, computeExpiredMs, notifyAction_hasStorage,
    notifyAction_keyPrefix, h1, h2]
  split
  · exact memInsert_other mem _ _ _ (h2 ▸ hck ∘ Eq.symm ∘ (h2 ▸ id))
  · rfl

/-- Witness for `c4_distinct_prefix_isolated` at concrete stores. -/
theorem c4_witness :
    computeKey "A" "k" ≠ computeKey "B" "k" ∧
    (StorageService.get msImpl 0 c4St2
        (StorageService.set msImpl 0 c4St1 memClear "k" 7 none).mem "k").value =
      (StorageService.get msImpl 0 c4St2 memClear "k").value :=
  ⟨(c4_distinct_prefix_isolated "A" "B" "k" (by decide)).1,
   (c4_distinct_prefix_isolated "A" "B" "k" (by decide)).2 msImpl 0 c4St1 c4St2
     memClear 7 rfl rfl⟩

/-! ## Lemmas about the successful write/read paths -/

@[simp]
theorem computeExpiredMs_notify {α : Type} (msFn : String → Except String Int)
    (st : SvcState α) (a : Action α) (expiredIn : Option String) :
    computeExpiredMs msFn (notifyAction st a) expiredIn =
    computeExpiredMs msFn st expiredIn := by
  unfold computeExpiredMs
  cases expiredIn <;> simp

/-- Appending the `"ms"` suffix never yields the empty (falsy) string. -/
theorem append_ms_ne_empty (s : String) : s ++ "ms" ≠ "" := by
  intro h
  have hd : s.data ++ "ms".data = ([] : List Char) := congrArg String.data h
  exact absurd (List.append_eq_nil.mp hd).2 (by decide)

/-- `set` on an available backend with a successfully resolved duration:
the full result. -/
theorem set_ok {α : Type} (msFn : String → Except String Int) (now : Int)
    (st : SvcState α) (mem : Mem α) (key : String) (value : α)
    (expiredIn : Option String) (d : Int)
    (hs : st.hasStorage = true)
    (hc : computeExpiredMs msFn st expiredIn = Except.ok d) :
    StorageService.set msFn now st mem key value expiredIn =
      ⟨notifyAction st (Action.set key value expiredIn),
       memInsert mem (computeKey st.keyPrefix key)
         (Cell.env d (if d = -1 then -1 else now + d) value),
       none⟩ := by
  have hc1 : computeExpiredMs msFn
      (notifyAction st (Action.set key value expiredIn)) expiredIn =
      Except.ok d := by rw [computeExpiredMs_notify, hc]
  simp [StorageService.set, hc1, hs]

/-- `get` on a live entry when the keep-alive re-write is not triggered
(infinite expiry or `keepAlive` off): value returned, nothing changed but
the `Get` notification. -/
theorem get_live_plain {α : Type} (msFn : String → Except String Int)
    (now : Int) (st : SvcState α) (mem : Mem α) (key : String)
    (ems eat : Int) (v : α)
    (hs : st.hasStorage = true)
    (hm : mem (computeKey st.keyPrefix key) = some (Cell.env ems eat v))
    (hl : unExpired eat now = true)
    (hka : (eat != -1 && st.keepAlive) = false) :
    StorageService.get msFn now st mem key =
      ⟨notifyAction st (Action.get key), mem, some v⟩ := by
  simp [StorageService.get, hs, hm, hl, hka]

/-- `get` on a live finite-expiry entry with `keepAlive` on and a duration
string the parser accepts: the entry is re-written through `set` with its
original duration, and the value is returned. -/
theorem get_live_keepalive {α : Type} (msFn : String → Except String Int)
    (now : Int) (st : SvcState α) (mem : Mem α) (key : String)
    (ems eat d : Int) (v : α)
    (hs : st.hasStorage = true)
    (hm : mem (computeKey st.keyPrefix key) = some (Cell.env ems eat v))
    (hl : unExpired eat now = true)
    (he : (eat != -1) = true)
    (hka : st.keepAlive = true)
    (hp : msFn (toString ems ++ "ms") = Except.ok d) :
    StorageService.get msFn now st mem key =
      ⟨notifyAction (notifyAction st (Action.get key))
         (Action.set key v (some (toString ems ++ "ms"))),
       memInsert mem (computeKey st.keyPrefix key)
         (Cell.env d (if d = -1 then -1 else now + d) v),
       some v⟩ := by
  have hc : computeExpiredMs msFn (notifyAction st (Action.get key))
      (some (toString ems ++ "ms")) = Except.ok d := by
    simp [computeExpiredMs, append_ms_ne_empty, hp]
  have hset := set_ok msFn now (notifyAction st (Action.get key)) mem key v
    (some (toString ems ++ "ms")) d (by simp [hs]) hc
  simp [StorageService.get, hs, hm, hl, he, hka, hset]

/-- `get` on an expired entry: the cell is removed and nothing found is
returned. -/
theorem get_expired {α : Type} (msFn : String → Except String Int)
    (now : Int) (st : SvcState α) (mem : Mem α) (key : String)
    (ems eat : Int) (v : α)
    (hs : st.hasStorage = true)
    (hm : mem (computeKey st.keyPrefix key) = some (Cell.env ems eat v))
    (hl : unExpired eat now = false) :
    StorageService.get msFn now st mem key =
      ⟨notifyAction st (Action.get key),
       memRemove mem (computeKey st.keyPrefix key), none⟩ := by
  simp [StorageService.get, hs, hm, hl]

/-- **C5**.  On a store with an available backend, `set` with no explicit
duration followed immediately by `get` (same clock value) returns the
stored value.  The hypotheses encode what construction guarantees about the
default duration (`-1` or a non-negative parse result) and the duration
parser's contract for the keep-alive re-write string. -/
theorem c5_set_then_get_returns_value {α : Type}
    (msFn : String → Except String Int) (now : Int) (st : SvcState α)
    (mem : Mem α) (key : String) (value : α)
    (hs : st.hasStorage = true)
    (hd : st.expiredMs = -1 ∨ 0 ≤ st.expiredMs)
    (hka : st.keepAlive = false ∨ st.expiredMs = -1 ∨
      ∃ n, msFn (toString st.expiredMs ++ "ms") = Except.ok n) :
    (StorageService.set msFn now st mem key value none).thrown = none ∧
    (StorageService.get msFn now
        (StorageService.set msFn now st mem key value none).st
        (StorageService.set msFn now st mem key value none).mem key).value =
      some value := by
  have hset := set_ok msFn now st mem key value none st.expiredMs hs rfl
  rw [hset]
  refine ⟨rfl, ?_⟩
  rcases hd with hd | hd
  · rw [get_live_plain msFn now _ _ key st.expiredMs
      (if st.expiredMs = -1 then -1 else now + st.expiredMs) value
      (by simp [hs]) (by simp) (by simp [hd, unExpired]) (by simp [hd])]
  · have hne : st.expiredMs ≠ -1 := by omega
    rw [if_neg hne]
    have hl : unExpired (now + st.expiredMs) now = true := by
      simp only [unExpired, Bool.or_eq_true]
      right
      simpa using by omega
    by_cases hb : st.keepAlive = true
    · rcases hka with hka | hka | ⟨n, hn⟩
      · rw [hb] at hka; cases hka
      · exact absurd hka hne
      · by_cases hne2 : now + st.expiredMs = -1
        · rw [get_live_plain msFn now _ _ key st.expiredMs (now + st.expiredMs)
            value (by simp [hs]) (by simp) hl (by simp [hne2])]
        · rw [get_live_keepalive msFn now _ _ key st.expiredMs
            (now + st.expiredMs) n value (by simp [hs]) (by simp) hl
            (by simp [hne2]) (by simp [hb]) hn]
    · rw [get_live_plain msFn now _ _ key st.expiredMs (now + st.expiredMs)
        value (by simp [hs]) (by simp) hl (by simp [hb])]

/-- Witness for `c5_set_then_get_returns_value` at a concrete store. -/
theorem c5_witness :
    (StorageService.set msImpl 100 c2St memClear "k" 42 none).thrown = none ∧
    (StorageService.get msImpl 100
        (StorageService.set msImpl 100 c2St memClear "k" 42 none).st
        (StorageService.set msImpl 100 c2St memClear "k" 42 none).mem "k").value =
      some 42 :=
  c5_set_then_get_returns_value msImpl 100 c2St memClear "k" 42 rfl
    (Or.inl rfl) (Or.inl rfl)

/-- **C6**.  Expiry boundary.  Writing at time `t` with a finite duration
of `d` milliseconds, a read at `t + d` still returns the value (the entry
is live), while a read at `t + d + 1` returns nothing found and removes
the underlying entry from the backend. -/
theorem c6_expiry_boundary {α : Type} (msFn : String → Except String Int)
    (t d : Int) (st : SvcState α) (mem : Mem α) (key : String) (value : α)
    (s : String)
    (hs : st.hasStorage = true) (hse : s ≠ "") (hp : msFn s = Except.ok d)
    (hd : 0 ≤ d) (ht : 0 ≤ t)
    (hka : st.keepAlive = false ∨ ∃ n, msFn (toString d ++ "ms") = Except.ok n) :
    (StorageService.set msFn t st mem key value (some s)).thrown = none ∧
    (StorageService.get msFn (t + d)
        (StorageService.set msFn t st mem key value (some s)).st
        (StorageService.set msFn t st mem key value (some s)).mem key).value =
      some value ∧
    (StorageService.get msFn (t + d + 1)
        (StorageService.set msFn t st mem key value (some s)).st
        (StorageService.set msFn t st mem key value (some s)).mem key).value =
      none ∧
    (StorageService.get msFn (t + d + 1)
        (StorageService.set msFn t st mem key value (some s)).st
        (StorageService.set msFn t st mem key value (some s)).mem key).mem
      (computeKey st.keyPrefix key) = none := by
  have hc : computeExpiredMs msFn st (some s) = Except.ok d := by
    simp [computeExpiredMs, hse, hp]
  have hset := set_ok msFn t st mem key value (some s) d hs hc
  have hne : d ≠ -1 := by omega
  rw [if_neg hne] at hset
  rw [hset]
  have hlive : unExpired (t + d) (t + d) = true := by
    simp only [unExpired, Bool.or_eq_true]
    right
    simp
  have hdead : unExpired (t + d) (t + d + 1) = false := by
    simp only [unExpired, Bool.or_eq_false_iff]
    constructor
    · simpa using by omega
    · simp
  have hexp := get_expired msFn (t + d + 1)
    (notifyAction st (Action.set key value (some s)))
    (memInsert mem (computeKey st.keyPrefix key) (Cell.env d (t + d) value))
    key d (t + d) value (by simp [hs]) (by simp) hdead
  refine ⟨rfl, ?_, ?_, ?_⟩
  · rcases hka with hka | ⟨n, hn⟩
    · rw [get_live_plain msFn (t + d) _ _ key d (t + d) value
        (by simp [hs]) (by simp) hlive (by simp [hka])]
    · by_cases hne2 : t + d = -1
      · rw [get_live_plain msFn (t + d) _ _ key d (t + d) value
          (by simp [hs]) (by simp) hlive (by simp [hne2])]
      · by_cases hb : st.keepAlive = true
        · rw [get_live_keepalive msFn (t + d) _ _ key d (t + d) n value
            (by simp [hs]) (by simp) hlive (by simp [hne2]) (by simp [hb]) hn]
        · rw [get_live_plain msFn (t + d) _ _ key d (t + d) value
            (by simp [hs]) (by simp) hlive (by simp [hb])]
  · rw [hexp]
  · rw [hexp]
    simp

/-- Witness for `c6_expiry_boundary` at a concrete store and clock. -/
theorem c6_witness :
    (StorageService.set msImpl 100 c2St memClear "k" 42 (some "5ms")).thrown = none ∧
    (StorageService.get msImpl (100 + 5)
        (StorageService.set msImpl 100 c2St memClear "k" 42 (some "5ms")).st
        (StorageService.set msImpl 100 c2St memClear "k" 42 (some "5ms")).mem
        "k").value = some 42 ∧
    (StorageService.get msImpl (100 + 5 + 1)
        (StorageService.set msImpl 100 c2St memClear "k" 42 (some "5ms")).st
        (StorageService.set msImpl 100 c2St memClear "k" 42 (some "5ms")).mem
        "k").value = none ∧
    (StorageService.get msImpl (100 + 5 + 1)
        (StorageService.set msImpl 100 c2St memClear "k" 42 (some "5ms")).st
        (StorageService.set msImpl 100 c2St memClear "k" 42 (some "5ms")).mem
        "k").mem (computeKey c2St.keyPrefix "k") = none :=
  c6_expiry_boundary msImpl 100 5 c2St memClear "k" 42 "5ms" rfl (by decide)
    rfl (by decide) (by decide) (Or.inl rfl)

/-- The service state returned by `set` is the notified state, on every
path (success, parse failure, unset handle). -/
theorem set_st {α : Type} (msFn : String → Except String Int) (now : Int)
    (st : SvcState α) (mem : Mem α) (key : String) (value : α)
    (expiredIn : Option String) :
    (StorageService.set msFn now st mem key value expiredIn).st =
      notifyAction st (Action.set key value expiredIn) := by
  simp only [StorageService.set]
  split
  · rfl
  · split <;> rfl

/-- One keep-alive read inside the expiry window: the value is returned and
the entry's window is re-based at the read time; the store flags are
untouched. -/
theorem keepalive_read_step {α : Type} (msFn : String → Except String Int)
    (d t0 t : Int) (st : SvcState α) (mem : Mem α) (key : String) (v : α)
    (hs : st.hasStorage = true) (hka : st.keepAlive = true)
    (hd : 0 ≤ d) (ht0 : 0 ≤ t0)
    (hp : msFn (toString d ++ "ms") = Except.ok d)
    (hm : mem (computeKey st.keyPrefix key) = some (Cell.env d (t0 + d) v))
    (_h1 : t0 ≤ t) (h2 : t ≤ t0 + d) :
    ∃ st' : SvcState α,
      StorageService.get msFn t st mem key =
        ⟨st',
         memInsert mem (computeKey st.keyPrefix key) (Cell.env d (t + d) v),
         some v⟩ ∧
      st'.hasStorage = true ∧ st'.keepAlive = true ∧
      st'.keyPrefix = st.keyPrefix := by
  have hne : d ≠ -1 := by omega
  have hl : unExpired (t0 + d) t = true := by
    simp only [unExpired, Bool.or_eq_true]
    right
    simpa using h2
  have he : ((t0 + d : Int) != -1) = true := by
    simpa using by omega
  have hget := get_live_keepalive msFn t st mem key d (t0 + d) d v hs hm hl
    he hka hp
  rw [if_neg hne] at hget
  exact ⟨_, hget, by simp [hs], by simp [hka], by simp⟩

/-- **C7**.  Sliding expiration.  With `keepAlive` enabled and a live
finite-duration entry (window based at `t0`, duration `d`, the parser
accepting the re-write string), every sequence of reads each within `d` of
the previous event returns the stored value at every read — the entry is
never observed as expired. -/
theorem c7_sliding_expiration {α : Type} (msFn : String → Except String Int)
    (d : Int) (key : String) (v : α) (times : List Int) (t0 : Int)
    (st : SvcState α) (mem : Mem α)
    (hs : st.hasStorage = true) (hka : st.keepAlive = true)
    (hd : 0 ≤ d) (ht0 : 0 ≤ t0)
    (hp : msFn (toString d ++ "ms") = Except.ok d)
    (hm : mem (computeKey st.keyPrefix key) = some (Cell.env d (t0 + d) v))
    (hsp : spaced d t0 times = true) :
    (runReads msFn key st mem times).2.2 = times.map (fun _ => some v) := by
  induction times generalizing t0 st mem with
  | nil => simp [runReads]
  | cons t ts ih =>
    simp only [spaced, Bool.and_eq_true, decide_eq_true_eq] at hsp
    obtain ⟨⟨h1, h2⟩, hrest⟩ := hsp
    obtain ⟨st', hget, hs', hka', hkp'⟩ :=
      keepalive_read_step msFn d t0 t st mem key v hs hka hd ht0 hp hm h1 h2
    simp only [runReads, hget, List.map]
    rw [ih t st'
      (memInsert mem (computeKey st.keyPrefix key) (Cell.env d (t + d) v))
      hs' hka' (by omega)
      (by rw [hkp']; exact memInsert_self mem _ _) hrest]

/-- Witness for `c7_sliding_expiration`: entry written with duration 5 at
time 10, reads at 12, 16, 20 (each within 5 of the previous) all return the
value. -/
theorem c7_witness :
    (runReads msImpl "k" c7St c7Mem [12, 16, 20]).2.2 =
      List.map (fun _ => some 42) [12, 16, 20] :=
  c7_sliding_expiration msImpl 5 "k" 42 [12, 16, 20] 10 c7St c7Mem rfl rfl
    (by decide) (by decide) rfl rfl (by decide)

/-- **C8**.  With `keepAlive` disabled, `get` on a live entry returns the
value and leaves the backend medium completely unchanged — the stored
envelope of the read key and every other key are exactly as before the
read. -/
theorem c8_get_frame_no_keepalive {α : Type}
    (msFn : String → Except String Int) (now : Int) (st : SvcState α)
    (mem : Mem α) (key : String) (ems eat : Int) (v : α)
    (hs : st.hasStorage = true) (hka : st.keepAlive = false)
    (hm : mem (computeKey st.keyPrefix key) = some (Cell.env ems eat v))
    (hl : unExpired eat now = true) :
    (StorageService.get msFn now st mem key).mem = mem ∧
    (StorageService.get msFn now st mem key).value = some v := by
  rw [get_live_plain msFn now st mem key ems eat v hs hm hl (by simp [hka])]
  exact ⟨rfl, rfl⟩

/-- Witness for `c8_get_frame_no_keepalive` at a concrete live entry. -/
theorem c8_witness :
    (StorageService.get msImpl 10 c2St c7Mem "k").mem = c7Mem ∧
    (StorageService.get msImpl 10 c2St c7Mem "k").value = some 42 :=
  c8_get_frame_no_keepalive msImpl 10 c2St c7Mem "k" 5 15 42 rfl rfl rfl
    (by decide)

/-- **C9**.  Envelope invariant maintained by every (non-throwing) write on
an available backend, under the parser contract (resolved durations are
`-1` or non-negative) and a non-negative clock: the persisted entry's
expiry timestamp is `-1` iff its ttl is `-1`, and otherwise equals the
write time plus the ttl. -/
theorem c9_envelope_invariant {α : Type} (msFn : String → Except String Int)
    (now : Int) (st : SvcState α) (mem : Mem α) (key : String) (value : α)
    (expiredIn : Option String) (d : Int)
    (hs : st.hasStorage = true) (hnow : 0 ≤ now)
    (hc : computeExpiredMs msFn st expiredIn = Except.ok d)
    (hd : d = -1 ∨ 0 ≤ d) :
    (StorageService.set msFn now st mem key value expiredIn).thrown = none ∧
    ∃ ems eat : Int,
      (StorageService.set msFn now st mem key value expiredIn).mem
        (computeKey st.keyPrefix key) = some (Cell.env ems eat value) ∧
      (eat = -1 ↔ ems = -1) ∧ (eat ≠ -1 → eat = now + ems) := by
  rw [set_ok msFn now st mem key value expiredIn d hs hc]
  refine ⟨rfl, d, if d = -1 then -1 else now + d, by simp, ?_, ?_⟩
  · rcases hd with hd | hd
    · simp [hd]
    · have hne : d ≠ -1 := by omega
      rw [if_neg hne]
      constructor
      · intro h; exact absurd h (by omega)
      · intro h; exact absurd h hne
  · intro h
    rcases hd with hd | hd
    · rw [if_pos hd] at h; exact absurd rfl h
    · rw [if_neg (by omega : d ≠ -1)]

/-- Witness for `c9_envelope_invariant` at a concrete finite-duration
write. -/
theorem c9_witness :
    (StorageService.set msImpl 100 c2St memClear "k" 42 (some "5ms")).thrown = none ∧
    ∃ ems eat : Int,
      (StorageService.set msImpl 100 c2St memClear "k" 42 (some "5ms")).mem
        (computeKey c2St.keyPrefix "k") = some (Cell.env ems eat 42) ∧
      (eat = -1 ↔ ems = -1) ∧ (eat ≠ -1 → eat = 100 + ems) :=
  c9_envelope_invariant msImpl 100 c2St memClear "k" 42 (some "5ms") 5 rfl
    (by decide) rfl (Or.inr (by decide))

/-- **C10**.  With `keepAlive` on and both `Set` and `Get` notifications
enabled in the mask, a `get` on a live finite-expiry entry emits a `Set`
action notification (through the public `set` path of the keep-alive
re-write) on top of the `Get` notification, the `Set` record carrying the
original ttl rendered as a millisecond string — irrespective of whether
the re-write itself succeeds. -/
theorem c10_keepalive_set_notification {α : Type}
    (msFn : String → Except String Int) (now : Int) (st : SvcState α)
    (mem : Mem α) (key : String) (ems eat : Int) (v : α)
    (hs : st.hasStorage = true) (hka : st.keepAlive = true)
    (hmS : st.actionNotify.onSet = true) (hmG : st.actionNotify.onGet = true)
    (hm : mem (computeKey st.keyPrefix key) = some (Cell.env ems eat v))
    (he : eat ≠ -1) (hl : unExpired eat now = true) :
    (StorageService.get msFn now st mem key).st.actions =
      Action.set key v (some (toString ems ++ "ms")) ::
        Action.get key :: st.actions := by
  have heb : (eat != -1) = true := by simpa using he
  simp only [StorageService.get, notifyAction_hasStorage, hs, if_true,
    notifyAction_keyPrefix, hm, hl, heb, notifyAction_keepAlive, hka,
    Bool.and_self, if_true]
  split <;>
    · rw [set_st]
      simp [notifyAction, ActionNotifyOptions.lookup, Action.type, hmS, hmG]

/-- Witness for `c10_keepalive_set_notification` at a concrete live
entry. -/
theorem c10_witness :
    (StorageService.get msImpl 10 c10St c7Mem "k").st.actions =
      Action.set "k" 42 (some (toString (5 : Int) ++ "ms")) ::
        Action.get "k" :: c10St.actions :=
  c10_keepalive_set_notification msImpl 10 c10St c7Mem "k" 5 15 42 rfl rfl
    rfl rfl rfl (by decide) (by decide)

end WebStorage
